import Mathlib

/-!
# Verification of the `reloader` file-watching package

Shallow embedding of `main.go` of the `reloader` Go package: a debounced
file-change watcher built on fsnotify.  Pure helpers (event filtering, path
grouping, configuration validation) are translated directly; the blocking
session loops of `Watch` and `WatchMultiple` are embedded as step functions
over an explicit oracle trace that decides the outcome of each blocking
point (watcher creation, directory registration, the retry-delay/cancel
race, and the main `select`), and the debounce timing of a session is
embedded as a timed run with Go timer semantics.
-/

namespace Reloader

/-! ## fsnotify operation bits (fsnotify `Op` constants) -/

def fsnotifyCreate : Nat := 1
def fsnotifyWrite  : Nat := 2
def fsnotifyRemove : Nat := 4
def fsnotifyRename : Nat := 8
def fsnotifyChmod  : Nat := 16

/-- A raw fsnotify event: `Name` (absolute path) and an `Op` bit set. -/
structure FsEvent where
  name : String
  op : Nat
deriving DecidableEq, Repr

/-- The zero `fsnotify.Event`, yielded by a receive on a closed Events channel. -/
def zeroEvent : FsEvent := { name := "", op := 0 }

/-- The operation test of `Watch` (main.go lines 87–88) and `WatchMultiple`
(lines 247–248): `ev.Op&Write != 0 || ev.Op&Create != 0 || ev.Op&Rename != 0
|| ev.Op&Remove != 0`. -/
def relevantOp (op : Nat) : Bool :=
  (op &&& fsnotifyWrite != 0) || (op &&& fsnotifyCreate != 0) ||
    (op &&& fsnotifyRename != 0) || (op &&& fsnotifyRemove != 0)

/-- The target filter of `Watch` (line 86): exact path equality with the
target plus a relevant operation. -/
def eventMatches (target : String) (e : FsEvent) : Bool :=
  e.name == target && relevantOp e.op

/-- The target filter of `WatchMultiple` (lines 245–248): the `for … range
cfg.TargetFiles` loop with `break` on the first target whose path equals
`ev.Name` with a relevant operation. -/
def firstMatchingTarget (targets : List String) (e : FsEvent) : Option String :=
  targets.find? (fun t => eventMatches t e)

/-! ## Paths: a model of Go's `path/filepath.Dir` -/

/-- Characters strictly before the last `'/'` of the list, or `none` when no
slash occurs. -/
def beforeLastSlash : List Char → Option (List Char)
  | [] => none
  | c :: rest =>
    match beforeLastSlash rest with
    | some r => some (c :: r)
    | none => if c = '/' then some [] else none

/-- Models Go's `path/filepath.Dir` on already-cleaned slash-separated paths
(the absolute file paths this package is used with): everything before the
last `'/'`, with `"/"` for a root-level entry and `"."` when the path has no
slash.  `Clean`'s dot-segment and duplicate-slash normalisation is not
modelled; it is the identity on the cleaned absolute paths concerned. -/
def filepathDir (p : String) : String :=
  match beforeLastSlash p.toList with
  | none => "."
  | some [] => "/"
  | some cs => String.mk cs

/-! ## Multi-target directory grouping (main.go lines 179–184) -/

/-- One step of `dirToFiles[dir] = append(dirToFiles[dir], file)`: the Go map
is modelled as an association list whose keys appear in first-insertion
order. -/
def insertGroup : List (String × List String) → String → String → List (String × List String)
  | [], dir, file => [(dir, [file])]
  | (d, fs) :: rest, dir, file =>
    if d = dir then (d, fs ++ [file]) :: rest
    else (d, fs) :: insertGroup rest dir file

/-- The `dirToFiles` map of `WatchMultiple` (lines 180–184). -/
def groupByDir (files : List String) : List (String × List String) :=
  files.foldl (fun m f => insertGroup m (filepathDir f) f) []

/-- The directories `WatchMultiple` registers with the watcher in one session
(the keys of `dirToFiles`, iterated at lines 204–221); the list order models
one admissible Go map-iteration order. -/
def targetDirs (files : List String) : List String :=
  (groupByDir files).map Prod.fst

/-! ## Configuration and validation -/

/-- Go's `time.Second` in nanoseconds, the unit of `time.Duration`. -/
def timeSecond : Nat := 1000000000

/-- Go constant `DefaultDebounce = 3 * time.Second` (main.go line 17). -/
def DefaultDebounce : Nat := 3 * timeSecond

/-- Go constant `DefaultRetryDelay = 2 * time.Second` (main.go line 19). -/
def DefaultRetryDelay : Nat := 2 * timeSecond

/-- The `Config` of `Watch`.  The three callback fields keep only whether the
function value is non-nil; what a callback does is outside the embedding,
its invocations are recorded in the run log. -/
structure Config where
  hasOnChange : Bool
  hasOnEvent : Bool
  hasOnError : Bool
  targetFile : String
  debounce : Nat
  retryDelay : Nat
deriving DecidableEq, Repr

/-- The default substitution of `Watch` (lines 34–39). -/
def Config.applyDefaults (cfg : Config) : Config :=
  let c1 := if cfg.debounce = 0 then { cfg with debounce := DefaultDebounce } else cfg
  if c1.retryDelay = 0 then { c1 with retryDelay := DefaultRetryDelay } else c1

/-- The validation prefix of `Watch` (lines 34–42): defaults, then the
`OnChange` nil check. -/
def watchValidate (cfg : Config) : Except String Config :=
  let c := cfg.applyDefaults
  if c.hasOnChange then .ok c else .error "OnChange callback must be set"

/-- The `MultiConfig` of `WatchMultiple` (lines 155–162). -/
structure MultiConfig where
  hasOnChange : Bool
  hasOnEvent : Bool
  hasOnError : Bool
  targetFiles : List String
  debounce : Nat
  retryDelay : Nat
deriving DecidableEq, Repr

/-- The default substitution of `WatchMultiple` (lines 166–171). -/
def MultiConfig.applyDefaults (cfg : MultiConfig) : MultiConfig :=
  let c1 := if cfg.debounce = 0 then { cfg with debounce := DefaultDebounce } else cfg
  if c1.retryDelay = 0 then { c1 with retryDelay := DefaultRetryDelay } else c1

/-- The validation prefix of `WatchMultiple` (lines 166–177): defaults, the
`OnChange` nil check, then the empty-target-list check. -/
def multiValidate (cfg : MultiConfig) : Except String MultiConfig :=
  let c := cfg.applyDefaults
  if !c.hasOnChange then .error "OnChange callback must be set"
  else if c.targetFiles.isEmpty then .error "at least one target file must be specified"
  else .ok c

/-! ## Oracle-trace embedding of the session loops

Each blocking point of the Go code is decided by the next element of an
oracle trace: the outcome of `fsnotify.NewWatcher()`, of `w.Add(dir)`, of
the `time.After(RetryDelay)`/`ctx.Done()` race, of the main `select`, and
(multi-target only) the asynchronous firing of a `time.AfterFunc` debounce
timer.  The run returns `none` while the function is still blocked (trace
exhausted, or a trace step naming a source that is not ready), and `some`
of the Go function's return value once it returns.  Callback invocations
and control-flow events are recorded in a log. -/

/-- Outcome of one arm selection of the main `select`. -/
inductive SelOutcome
  | done                      -- `<-ctx.Done()`
  | ev (e : FsEvent)          -- `ev := <-w.Events`
  | timer                     -- `<-debounce.C` (single-target)
  | debounced                 -- `file := <-debouncedEvents` (multi-target)
  | werr (isNil : Bool)       -- `err := <-w.Errors` (nil when the channel is closed)
deriving DecidableEq, Repr

/-- One oracle step: the outcome of the next blocking point reached. -/
inductive OStep
  | newWatcher (ok : Bool)    -- outcome of `fsnotify.NewWatcher()`
  | addDir (ok : Bool)        -- outcome of `w.Add(dir)` on an open watcher
  | waitRetry (cancelled : Bool) -- the retry select: `true` = `ctx.Done()` won
  | fire (tgt : String)       -- a `time.AfterFunc` debounce callback runs (multi-target)
  | sel (o : SelOutcome)      -- the main `select`
deriving DecidableEq, Repr

/-- Observable items of a run: caller-callback invocations, plus unconditional
control-flow markers (control reaching a given source line). -/
inductive LogItem
  | attemptOpen               -- control reached the top of the session `for` loop
  | opened                    -- `fsnotify.NewWatcher()` succeeded
  | addedDir (d : String)     -- `w.Add(d)` succeeded
  | retryWait (d : Nat)       -- the `time.After(d)` retry wait elapsed in full
  | midErr                    -- `break loop` after a receive on `w.Errors`
  | timerReset (tgt : String) (d : Nat) -- the debounce timer for `tgt` was (re)set to `d`
  | onEvent (s : String)      -- `cfg.OnEvent(s)` was invoked
  | onError                   -- `cfg.OnError(err)` was invoked
  | onChange                  -- `cfg.OnChange()` was invoked (single-target)
  | onChangeFile (f : String) -- `cfg.OnChange(f)` was invoked (multi-target)
deriving DecidableEq, Repr

/-- Return value of `Watch`/`WatchMultiple`. -/
inductive WResult
  | configError (msg : String) -- the `errors.New(msg)` validation results
  | ctxCancelled               -- `ctx.Err()` after observing cancellation
deriving DecidableEq, Repr

/-- Result of consuming one oracle step. -/
inductive StepRes (φ : Type)
  | ret (r : WResult) (out : List LogItem)
  | cont (ph : φ) (out : List LogItem)
  | stuck
deriving DecidableEq, Repr

/-! ### Single-target session loop (`Watch`, main.go lines 44–111) -/

/-- Control location inside `Watch`'s session loop. -/
inductive WPhase
  | opening                   -- about to call `fsnotify.NewWatcher()` (line 45)
  | openFailWait              -- in the retry select after a creation error (lines 50–55)
  | adding                    -- about to call `w.Add(dir)` (line 59)
  | addFailWait               -- in the retry select after an `Add` error (lines 64–69)
  | watching (timerActive : Bool) -- in the labelled `loop` select (lines 78–108)
deriving DecidableEq, Repr

def errLog (cfg : Config) : List LogItem := if cfg.hasOnError then [.onError] else []

def evtLog (cfg : Config) (s : String) : List LogItem :=
  if cfg.hasOnEvent then [.onEvent s] else []

/-- One step of `Watch`'s session loop; `cfg` is the validated config. -/
def stepW (cfg : Config) : WPhase → OStep → StepRes WPhase
  | .opening, .newWatcher ok =>
    if ok then .cont .adding [.opened]
    else .cont .openFailWait (errLog cfg)
  | .openFailWait, .waitRetry c =>
    if c then .ret .ctxCancelled []
    else .cont .opening [.retryWait cfg.retryDelay, .attemptOpen]
  | .adding, .addDir ok =>
    if ok then
      .cont (.watching false)
        (.addedDir (filepathDir cfg.targetFile) ::
          evtLog cfg ("watching " ++ filepathDir cfg.targetFile))
    else .cont .addFailWait (errLog cfg)
  | .addFailWait, .waitRetry c =>
    if c then .ret .ctxCancelled []
    else .cont .opening [.retryWait cfg.retryDelay, .attemptOpen]
  | .watching act, .sel o =>
    match o with
    | .done => .ret .ctxCancelled []
    | .ev e =>
      if eventMatches cfg.targetFile e then
        .cont (.watching true)
          (evtLog cfg ("change detected: " ++ e.name) ++
            [.timerReset cfg.targetFile cfg.debounce])
      else .cont (.watching act) []
    | .timer =>
      if act then .cont (.watching false) (evtLog cfg "sending signal" ++ [.onChange])
      else .stuck
    | .debounced => .stuck
    | .werr isNil =>
      .cont .opening
        ((if !isNil && cfg.hasOnError then [.onError] else []) ++ [.midErr, .attemptOpen])
  | _, _ => .stuck

/-- Runs `Watch`'s session loop from a control location over an oracle trace. -/
def watchGo (cfg : Config) : WPhase → List OStep → Option WResult × List LogItem
  | _, [] => (none, [])
  | ph, s :: rest =>
    match stepW cfg ph s with
    | .ret r out => (some r, out)
    | .cont ph' out =>
      let next := watchGo cfg ph' rest
      (next.1, out ++ next.2)
    | .stuck => (none, [])

/-- The whole of `Watch` (lines 33–111): validation, then the session loop. -/
def watchRun (cfg : Config) (trace : List OStep) : Option WResult × List LogItem :=
  match watchValidate cfg with
  | .error msg => (some (.configError msg), [])
  | .ok v =>
    let r := watchGo v .opening trace
    (r.1, .attemptOpen :: r.2)

/-! ### Multi-target session loop (`WatchMultiple`, main.go lines 190–284) -/

/-- Timer-map lookup (`activeTimers[targetFile]`). -/
def lookupTimer : List (String × Nat) → String → Option Nat
  | [], _ => none
  | (k, v) :: rest, t => if k = t then some v else lookupTimer rest t

/-- Timer-map assignment (lines 255–264: `Stop` any existing timer for the
target, then store the fresh one). -/
def setTimer : List (String × Nat) → String → Nat → List (String × Nat)
  | [], t, d => [(t, d)]
  | (k, v) :: rest, t, d =>
    if k = t then (k, d) :: rest else (k, v) :: setTimer rest t d

/-- Timer-map deletion (`delete(activeTimers, targetFile)`, line 262). -/
def eraseTimer : List (String × Nat) → String → List (String × Nat)
  | [], _ => []
  | (k, v) :: rest, t => if k = t then rest else (k, v) :: eraseTimer rest t

def merrLog (cfg : MultiConfig) : List LogItem := if cfg.hasOnError then [.onError] else []

def mevtLog (cfg : MultiConfig) (s : String) : List LogItem :=
  if cfg.hasOnEvent then [.onEvent s] else []

/-- Control location inside `WatchMultiple`'s session loop.  `closed` records
that `w.Close()` already ran for the current watcher: Go's `continue` inside
the registration `select` (line 212) resumes the inner `for dir := range
dirToFiles` loop, not the outer session loop, so after a registration failure
the remaining directories are still visited — each `w.Add` on the closed
watcher fails — and control then falls through to the event loop with the
watcher closed (its `Events`/`Errors` channels yield zero values). -/
inductive MPhase
  | opening                   -- about to call `fsnotify.NewWatcher()` (line 191)
  | openFailWait              -- retry select after a creation error (lines 196–201)
  | registering (closed : Bool) (pending : List String) -- inside `for dir := range dirToFiles` (lines 205–221)
  | regFailWait (pending : List String) -- retry select after an `Add` error (lines 211–216)
  | watching (closed : Bool) (timers : List (String × Nat)) (buffer : List String)
      -- the labelled `loop` select (lines 230–281); `buffer` is `debouncedEvents`
deriving DecidableEq, Repr

/-- Continue the registration loop, entering the event loop (fresh
`debouncedEvents` channel and empty `activeTimers` map, lines 223–228) once
no directories remain. -/
def afterReg (closed : Bool) : List String → MPhase
  | [] => .watching closed [] []
  | p => .registering closed p

/-- The event-arm body of `WatchMultiple` (lines 243–268) as a step result:
find the first matching target, report, and (re)set that target's debounce
timer, staying in the watching phase. -/
def evArm (cfg : MultiConfig) (closed : Bool) (timers : List (String × Nat))
    (buffer : List String) (e' : FsEvent) : StepRes MPhase :=
  match firstMatchingTarget cfg.targetFiles e' with
  | some tgt =>
    .cont (.watching closed (setTimer timers tgt cfg.debounce) buffer)
      (mevtLog cfg ("change detected: " ++ e'.name) ++ [.timerReset tgt cfg.debounce])
  | none => .cont (.watching closed timers buffer) []

/-- The event-arm body of `WatchMultiple` (lines 243–268): find the first
matching target, report, and (re)set that target's debounce timer. -/
def handleEventMulti (cfg : MultiConfig) (timers : List (String × Nat)) (e : FsEvent) :
    List (String × Nat) × List LogItem :=
  match firstMatchingTarget cfg.targetFiles e with
  | some tgt =>
    (setTimer timers tgt cfg.debounce,
      mevtLog cfg ("change detected: " ++ e.name) ++ [.timerReset tgt cfg.debounce])
  | none => (timers, [])

/-- One step of `WatchMultiple`'s session loop; `cfg` is the validated config. -/
def stepM (cfg : MultiConfig) : MPhase → OStep → StepRes MPhase
  | .opening, .newWatcher ok =>
    if ok then .cont (afterReg false (targetDirs cfg.targetFiles)) [.opened]
    else .cont .openFailWait (merrLog cfg)
  | .openFailWait, .waitRetry c =>
    if c then .ret .ctxCancelled []
    else .cont .opening [.retryWait cfg.retryDelay, .attemptOpen]
  | .registering false (d :: rest), .addDir ok =>
    if ok then .cont (afterReg false rest) (.addedDir d :: mevtLog cfg ("watching directory: " ++ d))
    else .cont (.regFailWait rest) (merrLog cfg)
  | .registering true (_ :: rest), .waitRetry c =>
    -- the watcher is already closed, so this `w.Add` fails without consulting
    -- the oracle; the step consumed is the retry select that follows
    if c then .ret .ctxCancelled (merrLog cfg)
    else .cont (afterReg true rest) (merrLog cfg ++ [.retryWait cfg.retryDelay])
  | .regFailWait rest, .waitRetry c =>
    if c then .ret .ctxCancelled []
    else .cont (afterReg true rest) [.retryWait cfg.retryDelay]
  | .watching closed timers buffer, .fire tgt =>
    -- a `time.AfterFunc` body runs: move the target from `activeTimers` to
    -- `debouncedEvents`; a stale timer of a torn-down session delivers into
    -- that session's discarded channel and map, observable as a no-op
    match lookupTimer timers tgt with
    | some _ => .cont (.watching closed (eraseTimer timers tgt) (buffer ++ [tgt])) []
    | none => .cont (.watching closed timers buffer) []
  | .watching closed timers buffer, .sel o =>
    match o with
    | .done => .ret .ctxCancelled []  -- close watcher, stop all timers, return ctx.Err()
    | .ev e =>
      -- a receive on the closed Events channel yields the zero Event
      evArm cfg closed timers buffer (if closed then zeroEvent else e)
    | .timer => .stuck
    | .debounced =>
      match buffer with
      | f :: bs =>
        .cont (.watching closed timers bs)
          (mevtLog cfg ("sending signal for: " ++ f) ++ [.onChangeFile f])
      | [] => .stuck
    | .werr isNil =>
      -- a receive on the closed Errors channel yields nil
      let isNil' := isNil || closed
      .cont .opening
        ((if !isNil' && cfg.hasOnError then [.onError] else []) ++ [.midErr, .attemptOpen])
  | _, _ => .stuck

/-- Runs `WatchMultiple`'s session loop from a control location over an oracle
trace; also returns the final control location of a still-blocked run. -/
def multiGo (cfg : MultiConfig) : MPhase → List OStep → Option WResult × List LogItem × MPhase
  | ph, [] => (none, [], ph)
  | ph, s :: rest =>
    match stepM cfg ph s with
    | .ret r out => (some r, out, ph)
    | .cont ph' out =>
      let next := multiGo cfg ph' rest
      (next.1, out ++ next.2.1, next.2.2)
    | .stuck => (none, [], ph)

/-- The whole of `WatchMultiple` (lines 165–284): validation, the grouping
summary notification (lines 186–188), then the session loop. -/
def multiRun (cfg : MultiConfig) (trace : List OStep) : Option WResult × List LogItem :=
  match multiValidate cfg with
  | .error msg => (some (.configError msg), [])
  | .ok v =>
    let r := multiGo v .opening trace
    (r.1,
      mevtLog v ("watching " ++ toString v.targetFiles.length ++ " files across " ++
        toString (targetDirs v.targetFiles).length ++ " directories") ++
      .attemptOpen :: r.2.1)

/-! ## Timed model of one session's debounce behaviour

Within an established, error-free session, the debounce state is the
optional absolute deadline of the pending timer.  Go timer semantics:
`debounce.Reset(d)` / `time.AfterFunc(d, …)` at absolute time `t` schedules
a firing at `t + d`; a relevant event arriving strictly before the deadline
replaces it (`Stop` succeeds); a deadline at or before the next arrival has
already fired (a tie is a `select` race, resolved timer-first here; the
theorems below only concern runs without ties).  After the last event a
still-pending deadline fires unchallenged. -/

/-- Processes timed raw events in arrival order from a given timer state,
returning the final timer state and the list of firing times that occurred.
`matchB` is the session's target filter applied to a raw event. -/
def debounceRunFrom (d : Nat) (matchB : FsEvent → Bool) :
    Option Nat → List (Nat × FsEvent) → Option Nat × List Nat
  | st, [] => (st, [])
  | some dl, (t, e) :: rest =>
    if dl ≤ t then
      let st' := if matchB e then some (t + d) else none
      let next := debounceRunFrom d matchB st' rest
      (next.1, dl :: next.2)
    else
      debounceRunFrom d matchB (if matchB e then some (t + d) else some dl) rest
  | none, (t, e) :: rest =>
    debounceRunFrom d matchB (if matchB e then some (t + d) else none) rest

/-- All firing times produced by a timed event sequence starting from the
idle timer (`debounce.Stop()` before the loop / empty `activeTimers`),
including the final unchallenged firing of a still-pending timer. -/
def fireTimes (d : Nat) (matchB : FsEvent → Bool) (evs : List (Nat × FsEvent)) : List Nat :=
  let r := debounceRunFrom d matchB none evs
  r.2 ++ (match r.1 with | some dl => [dl] | none => [])

/-- The change-callback invocation times of `Watch`'s session (lines 75–101)
for a sequence of timed raw events: the single timer, filtered by
`eventMatches`. -/
def watchFireTimes (cfg : Config) (evs : List (Nat × FsEvent)) : List Nat :=
  fireTimes cfg.debounce (eventMatches cfg.targetFile) evs

/-- The change-callback invocation times of `WatchMultiple`'s session for
target `tgt` (lines 243–274): `tgt`'s own `AfterFunc` timer, reset exactly
when the first-match filter attributes a raw event to `tgt`; the firing is
handed to `debouncedEvents` and drained immediately in a quiescent session. -/
def multiFireTimes (cfg : MultiConfig) (tgt : String) (evs : List (Nat × FsEvent)) : List Nat :=
  fireTimes cfg.debounce (fun e => firstMatchingTarget cfg.targetFiles e == some tgt) evs

/-- The deadline left by a burst: the last event's time plus the delay, or
the starting deadline for an empty burst. -/
def burstDeadline (d dl : Nat) (evs : List (Nat × FsEvent)) : Nat :=
  evs.foldl (fun _ p => p.1 + d) dl

/-! ## Log predicates used by the theorems -/

/-- The retry-delay values waited in a run log. -/
def retryWaits (log : List LogItem) : List Nat :=
  log.filterMap fun x => match x with | .retryWait d => some d | _ => none

/-- The directories successfully registered in a run log, in order. -/
def addedDirs (log : List LogItem) : List String :=
  log.filterMap fun x => match x with | .addedDir d => some d | _ => none

/-- Holds when every mid-session-error teardown in the log is immediately
followed by the next session-opening attempt (no retry wait, no other
activity between), and no teardown is left dangling at the end. -/
def midErrFollowed : List LogItem → Bool
  | [] => true
  | [x] => !(x == .midErr)
  | x :: y :: rest =>
    (!(x == .midErr) || (y == .attemptOpen)) && midErrFollowed (y :: rest)

/-- Target `a` has no pending debounce state at this control location:
no active timer and no undelivered settlement in `debouncedEvents`. -/
def avoidsTarget (a : String) : MPhase → Prop
  | .watching _ timers buffer => lookupTimer timers a = none ∧ a ∉ buffer
  | _ => True

/-! ## Helper lemmas -/

theorem lookupTimer_setTimer_ne (t b : String) (d : Nat) (h : b ≠ t) :
    ∀ m : List (String × Nat), lookupTimer (setTimer m t d) b = lookupTimer m b := by
  intro m
  induction m with
  | nil => simp [setTimer, lookupTimer, Ne.symm h]
  | cons kv rest ih =>
    obtain ⟨k, v⟩ := kv
    by_cases hk : k = t
    · subst hk
      have hkb : k ≠ b := fun hkb => h (hkb.symm)
      simp [setTimer, lookupTimer, hkb]
    · simp only [setTimer, if_neg hk, lookupTimer]
      by_cases hkb : k = b
      · simp [hkb]
      · simp [hkb, ih]

theorem lookupTimer_eraseTimer_of_none (a t : String) :
    ∀ m : List (String × Nat), lookupTimer m a = none →
      lookupTimer (eraseTimer m t) a = none := by
  intro m
  induction m with
  | nil => simp [eraseTimer]
  | cons kv rest ih =>
    obtain ⟨k, v⟩ := kv
    intro h
    simp only [lookupTimer] at h
    by_cases hkb : k = a
    · simp [hkb] at h
    · simp only [if_neg hkb] at h
      by_cases hk : k = t
      · simpa [eraseTimer, hk] using h
      · simp only [eraseTimer, if_neg hk, lookupTimer, if_neg hkb]
        exact ih h

theorem applyDefaults_debounce (cfg : Config) :
    (Config.applyDefaults cfg).debounce =
      if cfg.debounce = 0 then DefaultDebounce else cfg.debounce := by
  by_cases h1 : cfg.debounce = 0 <;> by_cases h2 : cfg.retryDelay = 0 <;>
    simp [Config.applyDefaults, h1, h2]

theorem applyDefaults_retryDelay (cfg : Config) :
    (Config.applyDefaults cfg).retryDelay =
      if cfg.retryDelay = 0 then DefaultRetryDelay else cfg.retryDelay := by
  by_cases h1 : cfg.debounce = 0 <;> by_cases h2 : cfg.retryDelay = 0 <;>
    simp [Config.applyDefaults, h1, h2]

theorem applyDefaults_hasOnChange (cfg : Config) :
    (Config.applyDefaults cfg).hasOnChange = cfg.hasOnChange := by
  by_cases h1 : cfg.debounce = 0 <;> by_cases h2 : cfg.retryDelay = 0 <;>
    simp [Config.applyDefaults, h1, h2]

theorem mApplyDefaults_debounce (cfg : MultiConfig) :
    (MultiConfig.applyDefaults cfg).debounce =
      if cfg.debounce = 0 then DefaultDebounce else cfg.debounce := by
  by_cases h1 : cfg.debounce = 0 <;> by_cases h2 : cfg.retryDelay = 0 <;>
    simp [MultiConfig.applyDefaults, h1, h2]

theorem mApplyDefaults_retryDelay (cfg : MultiConfig) :
    (MultiConfig.applyDefaults cfg).retryDelay =
      if cfg.retryDelay = 0 then DefaultRetryDelay else cfg.retryDelay := by
  by_cases h1 : cfg.debounce = 0 <;> by_cases h2 : cfg.retryDelay = 0 <;>
    simp [MultiConfig.applyDefaults, h1, h2]

theorem mApplyDefaults_hasOnChange (cfg : MultiConfig) :
    (MultiConfig.applyDefaults cfg).hasOnChange = cfg.hasOnChange := by
  by_cases h1 : cfg.debounce = 0 <;> by_cases h2 : cfg.retryDelay = 0 <;>
    simp [MultiConfig.applyDefaults, h1, h2]

theorem mApplyDefaults_targetFiles (cfg : MultiConfig) :
    (MultiConfig.applyDefaults cfg).targetFiles = cfg.targetFiles := by
  by_cases h1 : cfg.debounce = 0 <;> by_cases h2 : cfg.retryDelay = 0 <;>
    simp [MultiConfig.applyDefaults, h1, h2]

theorem mem_keys_insertGroup (x dir file : String) :
    ∀ m : List (String × List String),
      (x ∈ (insertGroup m dir file).map Prod.fst ↔ x ∈ m.map Prod.fst ∨ x = dir) := by
  intro m
  induction m with
  | nil => simp [insertGroup]
  | cons p rest ih =>
    obtain ⟨d, fs⟩ := p
    by_cases hd : d = dir
    · subst hd
      have hins : insertGroup ((d, fs) :: rest) d file = (d, fs ++ [file]) :: rest := by
        simp [insertGroup]
      rw [hins]
      simp only [List.map_cons, List.mem_cons]
      tauto
    · simp only [insertGroup, if_neg hd, List.map_cons, List.mem_cons, ih]
      tauto

theorem nodup_keys_insertGroup (dir file : String) :
    ∀ m : List (String × List String), (m.map Prod.fst).Nodup →
      ((insertGroup m dir file).map Prod.fst).Nodup := by
  intro m
  induction m with
  | nil => simp [insertGroup]
  | cons p rest ih =>
    obtain ⟨d, fs⟩ := p
    intro h
    simp only [List.map_cons, List.nodup_cons] at h
    by_cases hd : d = dir
    · subst hd
      simpa [insertGroup, List.nodup_cons] using h
    · simp only [insertGroup, if_neg hd, List.map_cons, List.nodup_cons]
      refine ⟨fun hmem => ?_, ih h.2⟩
      rw [mem_keys_insertGroup] at hmem
      rcases hmem with h1 | h2
      · exact h.1 h1
      · exact hd h2

theorem mem_keys_groupFold (x : String) :
    ∀ (files : List String) (m : List (String × List String)),
      (x ∈ ((files.foldl (fun m f => insertGroup m (filepathDir f) f) m).map Prod.fst) ↔
        x ∈ m.map Prod.fst ∨ ∃ f ∈ files, filepathDir f = x) := by
  intro files
  induction files with
  | nil => simp
  | cons f rest ih =>
    intro m
    simp only [List.foldl_cons, ih, mem_keys_insertGroup, List.mem_cons]
    constructor
    · rintro ((h | h) | h)
      · exact Or.inl h
      · exact Or.inr ⟨f, Or.inl rfl, h.symm⟩
      · obtain ⟨g, hg, hgx⟩ := h
        exact Or.inr ⟨g, Or.inr hg, hgx⟩
    · rintro (h | ⟨g, (rfl | hg), hgx⟩)
      · exact Or.inl (Or.inl h)
      · exact Or.inl (Or.inr hgx.symm)
      · exact Or.inr ⟨g, hg, hgx⟩

theorem nodup_keys_groupFold :
    ∀ (files : List String) (m : List (String × List String)),
      (m.map Prod.fst).Nodup →
      ((files.foldl (fun m f => insertGroup m (filepathDir f) f) m).map Prod.fst).Nodup := by
  intro files
  induction files with
  | nil => intro m h; simpa using h
  | cons f rest ih =>
    intro m h
    simp only [List.foldl_cons]
    exact ih _ (nodup_keys_insertGroup _ _ _ h)

theorem mem_targetDirs (files : List String) (x : String) :
    x ∈ targetDirs files ↔ ∃ f ∈ files, filepathDir f = x := by
  unfold targetDirs groupByDir
  rw [mem_keys_groupFold]
  simp

theorem nodup_targetDirs (files : List String) : (targetDirs files).Nodup := by
  unfold targetDirs groupByDir
  exact nodup_keys_groupFold files [] (by simp)

theorem debounceRunFrom_burst (d : Nat) (matchB : FsEvent → Bool) :
    ∀ (evs : List (Nat × FsEvent)) (dl : Nat),
      (∀ p ∈ evs, matchB p.2 = true) →
      (∀ t e, evs.head? = some (t, e) → t < dl) →
      List.Chain' (fun a b => b.1 < a.1 + d) evs →
      debounceRunFrom d matchB (some dl) evs = (some (burstDeadline d dl evs), []) := by
  intro evs
  induction evs with
  | nil => intro dl _ _ _; rfl
  | cons p rest ih =>
    obtain ⟨t, e⟩ := p
    intro dl hrel hhead hchain
    have ht : t < dl := hhead t e rfl
    have hm : matchB e = true := hrel (t, e) (by simp)
    have hle : ¬ dl ≤ t := Nat.not_le.mpr ht
    simp only [debounceRunFrom, if_neg hle, hm, if_pos]
    have hrest : debounceRunFrom d matchB (some (t + d)) rest =
        (some (burstDeadline d (t + d) rest), []) := by
      refine ih (t + d) (fun q hq => hrel q (List.mem_cons_of_mem _ hq)) ?_ hchain.tail
      intro t' e' hh
      cases rest with
      | nil => simp at hh
      | cons q rest' =>
        have hlt : q.1 < t + d := (List.chain'_cons.mp hchain).1
        simp only [List.head?_cons, Option.some.injEq] at hh
        rw [hh] at hlt
        exact hlt
    rw [hrest]
    rfl

theorem burstDeadline_getLast (d : Nat) :
    ∀ (evs : List (Nat × FsEvent)) (dl : Nat) (p : Nat × FsEvent),
      evs.getLast? = some p → burstDeadline d dl evs = p.1 + d := by
  intro evs
  induction evs with
  | nil => intro dl p h; simp at h
  | cons q rest ih =>
    intro dl p h
    cases rest with
    | nil =>
      simp only [List.getLast?_singleton, Option.some.injEq] at h
      subst h
      rfl
    | cons q' rest' =>
      rw [List.getLast?_cons_cons] at h
      exact ih (q.1 + d) p h

/-- A burst (consecutive gaps strictly below the delay, every event passing
the filter) starting from the idle timer produces exactly one firing, at the
last event's time plus the delay. -/
theorem fireTimes_burst (d : Nat) (matchB : FsEvent → Bool) :
    ∀ (evs : List (Nat × FsEvent)) (p : Nat × FsEvent),
      (∀ q ∈ evs, matchB q.2 = true) →
      List.Chain' (fun a b => b.1 < a.1 + d) evs →
      evs.getLast? = some p →
      fireTimes d matchB evs = [p.1 + d] := by
  intro evs p hrel hchain hlast
  cases evs with
  | nil => simp at hlast
  | cons q rest =>
    obtain ⟨t, e⟩ := q
    have hm : matchB e = true := hrel (t, e) (by simp)
    have hrest : debounceRunFrom d matchB (some (t + d)) rest =
        (some (burstDeadline d (t + d) rest), []) := by
      refine debounceRunFrom_burst d matchB rest (t + d)
        (fun q hq => hrel q (List.mem_cons_of_mem _ hq)) ?_ hchain.tail
      intro t' e' hh
      cases rest with
      | nil => simp at hh
      | cons q' rest' =>
        have hlt : q'.1 < t + d := (List.chain'_cons.mp hchain).1
        simp only [List.head?_cons, Option.some.injEq] at hh
        rw [hh] at hlt
        exact hlt
    have hstep : debounceRunFrom d matchB none ((t, e) :: rest) =
        debounceRunFrom d matchB (some (t + d)) rest := by
      simp only [debounceRunFrom, hm, if_pos]
    have hdl : burstDeadline d (t + d) rest = p.1 + d := by
      cases rest with
      | nil =>
        simp only [List.getLast?_singleton, Option.some.injEq] at hlast
        subst hlast
        rfl
      | cons q' rest' =>
        rw [List.getLast?_cons_cons] at hlast
        exact burstDeadline_getLast d _ _ p hlast
    unfold fireTimes
    rw [hstep, hrest, hdl]
    rfl

theorem watchGo_cons (cfg : Config) (ph : WPhase) (s : OStep) (rest : List OStep) :
    watchGo cfg ph (s :: rest) =
      match stepW cfg ph s with
      | .ret r out => (some r, out)
      | .cont ph' out => ((watchGo cfg ph' rest).1, out ++ (watchGo cfg ph' rest).2)
      | .stuck => (none, []) := rfl

theorem multiGo_cons (cfg : MultiConfig) (ph : MPhase) (s : OStep) (rest : List OStep) :
    multiGo cfg ph (s :: rest) =
      match stepM cfg ph s with
      | .ret r out => (some r, out, ph)
      | .cont ph' out =>
        ((multiGo cfg ph' rest).1, out ++ (multiGo cfg ph' rest).2.1, (multiGo cfg ph' rest).2.2)
      | .stuck => (none, [], ph) := rfl

theorem stepW_ret (cfg : Config) :
    ∀ (ph : WPhase) (s : OStep) (r : WResult) (out : List LogItem),
      stepW cfg ph s = .ret r out → r = .ctxCancelled ∧ out = [] := by
  intro ph s r out h
  unfold stepW at h
  repeat' split at h
  all_goals simp_all

theorem evArm_ne_ret (cfg : MultiConfig) (c : Bool) (tm : List (String × Nat))
    (bf : List String) (e' : FsEvent) (r : WResult) (out : List LogItem) :
    evArm cfg c tm bf e' ≠ .ret r out := by
  intro h
  unfold evArm at h
  rcases hfm : firstMatchingTarget cfg.targetFiles e' with _ | tgt <;>
    rw [hfm] at h <;> cases h

theorem evArm_cont (cfg : MultiConfig) (c : Bool) (tm : List (String × Nat))
    (bf : List String) (e' : FsEvent) (ph' : MPhase) (out : List LogItem)
    (h : evArm cfg c tm bf e' = .cont ph' out) :
    (∃ tgt, firstMatchingTarget cfg.targetFiles e' = some tgt ∧
      ph' = .watching c (setTimer tm tgt cfg.debounce) bf ∧
      out = mevtLog cfg ("change detected: " ++ e'.name) ++
        [.timerReset tgt cfg.debounce]) ∨
    (firstMatchingTarget cfg.targetFiles e' = none ∧ ph' = .watching c tm bf ∧ out = []) := by
  unfold evArm at h
  rcases hfm : firstMatchingTarget cfg.targetFiles e' with _ | tgt <;> rw [hfm] at h <;>
    (injection h with h1 h2)
  · exact Or.inr ⟨rfl, h1.symm, h2.symm⟩
  · exact Or.inl ⟨tgt, rfl, h1.symm, h2.symm⟩

theorem stepM_ret (cfg : MultiConfig) :
    ∀ (ph : MPhase) (s : OStep) (r : WResult) (out : List LogItem),
      stepM cfg ph s = .ret r out → r = .ctxCancelled := by
  intro ph s r out h
  unfold stepM at h
  repeat' split at h
  all_goals (try (exact absurd h (evArm_ne_ret _ _ _ _ _ _ _)))
  all_goals simp_all

theorem mem_errLog_iff (cfg : Config) (x : LogItem) :
    x ∈ errLog cfg ↔ cfg.hasOnError = true ∧ x = .onError := by
  unfold errLog; split <;> simp_all

theorem mem_evtLog_iff (cfg : Config) (s : String) (x : LogItem) :
    x ∈ evtLog cfg s ↔ cfg.hasOnEvent = true ∧ x = .onEvent s := by
  unfold evtLog; split <;> simp_all

theorem mem_merrLog_iff (cfg : MultiConfig) (x : LogItem) :
    x ∈ merrLog cfg ↔ cfg.hasOnError = true ∧ x = .onError := by
  unfold merrLog; split <;> simp_all

theorem mem_mevtLog_iff (cfg : MultiConfig) (s : String) (x : LogItem) :
    x ∈ mevtLog cfg s ↔ cfg.hasOnEvent = true ∧ x = .onEvent s := by
  unfold mevtLog; split <;> simp_all

theorem watchGo_some (cfg : Config) :
    ∀ (tr : List OStep) (ph : WPhase) (r : WResult),
      (watchGo cfg ph tr).1 = some r → r = .ctxCancelled := by
  intro tr
  induction tr with
  | nil => intro ph r h; simp [watchGo] at h
  | cons s rest ih =>
    intro ph r h
    rw [watchGo_cons] at h
    rcases hs : stepW cfg ph s with ⟨r', out⟩ | ⟨ph', out⟩ | _ <;> rw [hs] at h <;> simp at h
    · exact h ▸ (stepW_ret cfg ph s r' out hs).1
    · exact ih ph' r h

theorem multiGo_some (cfg : MultiConfig) :
    ∀ (tr : List OStep) (ph : MPhase) (r : WResult),
      (multiGo cfg ph tr).1 = some r → r = .ctxCancelled := by
  intro tr
  induction tr with
  | nil => intro ph r h; simp [multiGo] at h
  | cons s rest ih =>
    intro ph r h
    rw [multiGo_cons] at h
    rcases hs : stepM cfg ph s with ⟨r', out⟩ | ⟨ph', out⟩ | _ <;> rw [hs] at h <;> simp at h
    · exact h ▸ stepM_ret cfg ph s r' out hs
    · exact ih ph' r h

theorem midErrFollowed_append (a : List LogItem) :
    ∀ b, midErrFollowed a = true → midErrFollowed b = true →
      midErrFollowed (a ++ b) = true := by
  induction a with
  | nil => intro b _ hb; simpa using hb
  | cons x a' ih =>
    intro b ha hb
    cases a' with
    | nil =>
      cases b with
      | nil => simpa using ha
      | cons y b' =>
        simp only [midErrFollowed] at ha
        simp only [List.cons_append, List.nil_append, midErrFollowed, Bool.and_eq_true]
        exact ⟨by simp [ha], hb⟩
    | cons y a'' =>
      simp only [midErrFollowed, Bool.and_eq_true] at ha
      simp only [List.cons_append, midErrFollowed, Bool.and_eq_true]
      exact ⟨ha.1, ih b ha.2 hb⟩

theorem midErrFollowed_of_no_midErr (a : List LogItem) :
    (∀ x ∈ a, x ≠ .midErr) → midErrFollowed a = true := by
  induction a with
  | nil => intro _; rfl
  | cons x a' ih =>
    intro h
    cases a' with
    | nil =>
      simp only [midErrFollowed, Bool.not_eq_true', beq_eq_false_iff_ne]
      exact h x (by simp)
    | cons y a'' =>
      simp only [midErrFollowed, Bool.and_eq_true]
      refine ⟨?_, ih (fun z hz => h z (List.mem_cons_of_mem _ hz))⟩
      have hx : x ≠ .midErr := h x (by simp)
      simp [hx]

theorem stepM_ret_out (cfg : MultiConfig) :
    ∀ (ph : MPhase) (s : OStep) (r : WResult) (out : List LogItem),
      stepM cfg ph s = .ret r out → ∀ x ∈ out, x = .onError := by
  intro ph s r out h
  unfold stepM at h
  repeat' split at h
  all_goals (try (exact absurd h (evArm_ne_ret _ _ _ _ _ _ _)))
  all_goals (try (injection h with h1 h2; subst h1; subst h2))
  all_goals (intro x hx; simp_all [mem_merrLog_iff])

theorem stepW_cont_items (cfg : Config) (ph : WPhase) (s : OStep) (ph' : WPhase)
    (out : List LogItem) (h : stepW cfg ph s = .cont ph' out) :
    (∀ d, LogItem.retryWait d ∈ out → d = cfg.retryDelay) ∧
    (∀ t d, LogItem.timerReset t d ∈ out → d = cfg.debounce) := by
  unfold stepW at h
  repeat' split at h
  all_goals (try (injection h with h1 h2; subst h1; subst h2))
  all_goals (refine ⟨?_, ?_⟩ <;> intros <;> simp_all [mem_errLog_iff, mem_evtLog_iff])

theorem stepM_cont_items (cfg : MultiConfig) (ph : MPhase) (s : OStep) (ph' : MPhase)
    (out : List LogItem) (h : stepM cfg ph s = .cont ph' out) :
    (∀ d, LogItem.retryWait d ∈ out → d = cfg.retryDelay) ∧
    (∀ t d, LogItem.timerReset t d ∈ out → d = cfg.debounce) := by
  unfold stepM at h
  repeat' split at h
  all_goals (try (rcases evArm_cont _ _ _ _ _ _ _ h with ⟨tgt, hfm, rfl, rfl⟩ | ⟨hfm, rfl, rfl⟩))
  all_goals (try (injection h with h1 h2; subst h1; subst h2))
  all_goals refine ⟨?_, ?_⟩
  all_goals intros
  all_goals rename_i hmem
  all_goals (try simp_all [mem_merrLog_iff, mem_mevtLog_iff])

theorem watchGo_delays (cfg : Config) :
    ∀ (tr : List OStep) (ph : WPhase),
      (∀ d, LogItem.retryWait d ∈ (watchGo cfg ph tr).2 → d = cfg.retryDelay) ∧
      (∀ t d, LogItem.timerReset t d ∈ (watchGo cfg ph tr).2 → d = cfg.debounce) := by
  intro tr
  induction tr with
  | nil => intro ph; simp [watchGo]
  | cons s rest ih =>
    intro ph
    rw [watchGo_cons]
    rcases hs : stepW cfg ph s with ⟨r', out⟩ | ⟨ph', out⟩ | _ <;> dsimp only
    · have hout := (stepW_ret cfg ph s r' out hs).2
      subst hout
      simp
    · refine ⟨?_, ?_⟩
      · intro d hd
        rcases List.mem_append.mp hd with h1 | h2
        · exact (stepW_cont_items cfg ph s ph' out hs).1 d h1
        · exact (ih ph').1 d h2
      · intro t d hd
        rcases List.mem_append.mp hd with h1 | h2
        · exact (stepW_cont_items cfg ph s ph' out hs).2 t d h1
        · exact (ih ph').2 t d h2
    · simp

theorem multiGo_delays (cfg : MultiConfig) :
    ∀ (tr : List OStep) (ph : MPhase),
      (∀ d, LogItem.retryWait d ∈ (multiGo cfg ph tr).2.1 → d = cfg.retryDelay) ∧
      (∀ t d, LogItem.timerReset t d ∈ (multiGo cfg ph tr).2.1 → d = cfg.debounce) := by
  intro tr
  induction tr with
  | nil => intro ph; simp [multiGo]
  | cons s rest ih =>
    intro ph
    rw [multiGo_cons]
    rcases hs : stepM cfg ph s with ⟨r', out⟩ | ⟨ph', out⟩ | _ <;> dsimp only
    · have hout := stepM_ret_out cfg ph s r' out hs
      refine ⟨?_, ?_⟩ <;> intros <;> rename_i hmem <;>
        exact absurd (hout _ hmem) (by simp)
    · refine ⟨?_, ?_⟩
      · intro d hd
        rcases List.mem_append.mp hd with h1 | h2
        · exact (stepM_cont_items cfg ph s ph' out hs).1 d h1
        · exact (ih ph').1 d h2
      · intro t d hd
        rcases List.mem_append.mp hd with h1 | h2
        · exact (stepM_cont_items cfg ph s ph' out hs).2 t d h1
        · exact (ih ph').2 t d h2
    · simp

theorem stepW_cont_midErr (cfg : Config) (ph : WPhase) (s : OStep) (ph' : WPhase)
    (out : List LogItem) (h : stepW cfg ph s = .cont ph' out) :
    midErrFollowed out = true := by
  unfold stepW at h
  repeat' split at h
  all_goals (try (injection h with h1 h2; subst h1; subst h2))
  all_goals
    first
      | decide
      | (apply midErrFollowed_of_no_midErr; intro x hx;
          (try simp_all [mem_errLog_iff, mem_evtLog_iff]);
          (try (intro hxm; subst hxm; simp_all)))

theorem stepM_cont_midErr (cfg : MultiConfig) (ph : MPhase) (s : OStep) (ph' : MPhase)
    (out : List LogItem) (h : stepM cfg ph s = .cont ph' out) :
    midErrFollowed out = true := by
  unfold stepM at h
  repeat' split at h
  all_goals (try (rcases evArm_cont _ _ _ _ _ _ _ h with ⟨tgt, hfm, rfl, rfl⟩ | ⟨hfm, rfl, rfl⟩))
  all_goals (try (injection h with h1 h2; subst h1; subst h2))
  all_goals (try split)
  all_goals
    first
      | decide
      | (apply midErrFollowed_of_no_midErr; intro x hx;
          (try simp_all [mem_merrLog_iff, mem_mevtLog_iff]);
          (try (intro hxm; subst hxm; simp_all)))

theorem watchGo_midErr (cfg : Config) :
    ∀ (tr : List OStep) (ph : WPhase), midErrFollowed (watchGo cfg ph tr).2 = true := by
  intro tr
  induction tr with
  | nil => intro ph; rfl
  | cons s rest ih =>
    intro ph
    rw [watchGo_cons]
    rcases hs : stepW cfg ph s with ⟨r', out⟩ | ⟨ph', out⟩ | _ <;> dsimp only
    · have hout := (stepW_ret cfg ph s r' out hs).2
      subst hout
      rfl
    · exact midErrFollowed_append out _ (stepW_cont_midErr cfg ph s ph' out hs) (ih ph')
    · rfl

theorem multiGo_midErr (cfg : MultiConfig) :
    ∀ (tr : List OStep) (ph : MPhase), midErrFollowed (multiGo cfg ph tr).2.1 = true := by
  intro tr
  induction tr with
  | nil => intro ph; rfl
  | cons s rest ih =>
    intro ph
    rw [multiGo_cons]
    rcases hs : stepM cfg ph s with ⟨r', out⟩ | ⟨ph', out⟩ | _ <;> dsimp only
    · exact midErrFollowed_of_no_midErr out
        (fun x hx => by simp [stepM_ret_out cfg ph s r' out hs x hx])
    · exact midErrFollowed_append out _ (stepM_cont_midErr cfg ph s ph' out hs) (ih ph')
    · rfl

theorem eventMatches_zeroEvent (t : String) : eventMatches t zeroEvent = false := by
  have h : relevantOp 0 = false := by decide
  simp [eventMatches, zeroEvent, h]

theorem firstMatchingTarget_zeroEvent (ts : List String) :
    firstMatchingTarget ts zeroEvent = none := by
  unfold firstMatchingTarget
  induction ts with
  | nil => rfl
  | cons t rest ih =>
    rw [List.find?_cons_of_neg _ (by simp [eventMatches_zeroEvent])]
    exact ih

theorem avoidsTarget_afterReg (a : String) (c : Bool) :
    ∀ p : List String, avoidsTarget a (afterReg c p) := by
  intro p
  cases p <;> simp [afterReg, avoidsTarget, lookupTimer]

theorem stepM_avoids (cfg : MultiConfig) (a : String) (ph : MPhase) (s : OStep)
    (hph : avoidsTarget a ph)
    (hsel : ∀ e, s = .sel (.ev e) → firstMatchingTarget cfg.targetFiles e ≠ some a) :
    ∀ ph' out, stepM cfg ph s = .cont ph' out →
      avoidsTarget a ph' ∧ LogItem.onChangeFile a ∉ out := by
  intro ph' out h
  cases ph with
  | watching closed timers buffer =>
    obtain ⟨hta, htb⟩ := hph
    cases s with
    | newWatcher ok => exact StepRes.noConfusion h
    | addDir ok => exact StepRes.noConfusion h
    | waitRetry c => exact StepRes.noConfusion h
    | fire tgt =>
      simp only [stepM] at h
      rcases hlk : lookupTimer timers tgt with _ | v <;> rw [hlk] at h <;>
        (injection h with h1 h2; subst h1; subst h2)
      · exact ⟨⟨hta, htb⟩, by simp⟩
      · have hne : a ≠ tgt := by
          intro hEq; rw [hEq, hlk] at hta; cases hta
        refine ⟨⟨lookupTimer_eraseTimer_of_none a tgt timers hta, ?_⟩, by simp⟩
        simp only [List.mem_append, List.mem_singleton]
        rintro (hb | rfl)
        · exact htb hb
        · exact hne rfl
    | sel o =>
      cases o with
      | done => exact StepRes.noConfusion h
      | timer => exact StepRes.noConfusion h
      | ev e =>
        simp only [stepM] at h
        rcases evArm_cont _ _ _ _ _ _ _ h with ⟨tgt, hfm, rfl, rfl⟩ | ⟨hfm, rfl, rfl⟩
        · cases closed with
          | true =>
            rw [show (if (true : Bool) then zeroEvent else e) = zeroEvent from rfl,
              firstMatchingTarget_zeroEvent] at hfm
            cases hfm
          | false =>
            rw [show (if (false : Bool) then zeroEvent else e) = e from rfl] at hfm
            have hne : a ≠ tgt := by
              intro hEq; subst hEq; exact hsel e rfl hfm
            refine ⟨⟨(lookupTimer_setTimer_ne tgt a cfg.debounce hne timers).trans hta, htb⟩, ?_⟩
            intro hmem
            rcases List.mem_append.mp hmem with h1 | h2
            · rcases (mem_mevtLog_iff cfg _ _).mp h1 with ⟨_, hx⟩
              cases hx
            · simp at h2
        · exact ⟨⟨hta, htb⟩, by simp⟩
      | debounced =>
        simp only [stepM] at h
        cases buffer with
        | nil => exact StepRes.noConfusion h
        | cons f bs =>
          injection h with h1 h2; subst h1; subst h2
          have hne : a ≠ f := fun hEq => htb (hEq ▸ List.mem_cons_self f bs)
          refine ⟨⟨hta, fun hb => htb (List.mem_cons_of_mem f hb)⟩, ?_⟩
          intro hmem
          rcases List.mem_append.mp hmem with h1 | h2
          · rcases (mem_mevtLog_iff cfg _ _).mp h1 with ⟨_, hx⟩
            cases hx
          · simp only [List.mem_singleton, LogItem.onChangeFile.injEq] at h2
            exact hne h2
      | werr isNil =>
        simp only [stepM] at h
        injection h with h1 h2; subst h1; subst h2
        refine ⟨by trivial, ?_⟩
        intro hmem
        rcases List.mem_append.mp hmem with h1 | h2
        · split at h1 <;> simp_all
        · simp at h2
  | opening =>
    unfold stepM at h
    repeat' split at h
    all_goals (try (injection h with h1 h2; subst h1; subst h2))
    all_goals
      first
      | exact ⟨avoidsTarget_afterReg a _ _, by intro hmem; simp_all [mem_merrLog_iff, mem_mevtLog_iff]⟩
      | exact ⟨by trivial, by intro hmem; simp_all [mem_merrLog_iff, mem_mevtLog_iff]⟩
  | openFailWait =>
    unfold stepM at h
    repeat' split at h
    all_goals (try (injection h with h1 h2; subst h1; subst h2))
    all_goals
      first
      | exact ⟨avoidsTarget_afterReg a _ _, by intro hmem; simp_all [mem_merrLog_iff, mem_mevtLog_iff]⟩
      | exact ⟨by trivial, by intro hmem; simp_all [mem_merrLog_iff, mem_mevtLog_iff]⟩
  | registering closed pending =>
    unfold stepM at h
    repeat' split at h
    all_goals (try (injection h with h1 h2; subst h1; subst h2))
    all_goals
      first
      | exact ⟨avoidsTarget_afterReg a _ _, by intro hmem; simp_all [mem_merrLog_iff, mem_mevtLog_iff]⟩
      | exact ⟨by trivial, by intro hmem; simp_all [mem_merrLog_iff, mem_mevtLog_iff]⟩
  | regFailWait pending =>
    unfold stepM at h
    repeat' split at h
    all_goals (try (injection h with h1 h2; subst h1; subst h2))
    all_goals
      first
      | exact ⟨avoidsTarget_afterReg a _ _, by intro hmem; simp_all [mem_merrLog_iff, mem_mevtLog_iff]⟩
      | exact ⟨by trivial, by intro hmem; simp_all [mem_merrLog_iff, mem_mevtLog_iff]⟩

theorem multiGo_noChange (cfg : MultiConfig) (a : String) :
    ∀ (tr : List OStep) (ph : MPhase),
      avoidsTarget a ph →
      (∀ e, OStep.sel (.ev e) ∈ tr → firstMatchingTarget cfg.targetFiles e ≠ some a) →
      LogItem.onChangeFile a ∉ (multiGo cfg ph tr).2.1 := by
  intro tr
  induction tr with
  | nil => intro ph _ _; simp [multiGo]
  | cons s rest ih =>
    intro ph hph htr
    rw [multiGo_cons]
    rcases hs : stepM cfg ph s with ⟨r', out⟩ | ⟨ph', out⟩ | _ <;> dsimp only
    · intro hmem
      have hx := stepM_ret_out cfg ph s r' out hs _ hmem
      cases hx
    · have hstep := stepM_avoids cfg a ph s hph
        (fun e hse => htr e (by rw [← hse]; exact List.mem_cons_self s rest)) ph' out hs
      intro hmem
      rcases List.mem_append.mp hmem with h1 | h2
      · exact hstep.2 h1
      · exact ih ph' hstep.1 (fun e he => htr e (List.mem_cons_of_mem s he)) h2
    · simp

theorem addedDirs_cons_addedDir (d : String) (l : List LogItem) :
    addedDirs (.addedDir d :: l) = d :: addedDirs l := rfl

theorem addedDirs_append (a b : List LogItem) :
    addedDirs (a ++ b) = addedDirs a ++ addedDirs b := by
  unfold addedDirs
  exact List.filterMap_append a b _

theorem addedDirs_mevtLog (cfg : MultiConfig) (s : String) :
    addedDirs (mevtLog cfg s) = [] := by
  unfold mevtLog
  split <;> rfl

/-- Registering with every `w.Add` succeeding adds exactly the pending
directories, in order, and enters the event loop with fresh debounce state. -/
theorem multiGo_register_allOk (cfg : MultiConfig) :
    ∀ pending : List String,
      addedDirs (multiGo cfg (afterReg false pending)
        (pending.map (fun _ => OStep.addDir true))).2.1 = pending ∧
      (multiGo cfg (afterReg false pending)
        (pending.map (fun _ => OStep.addDir true))).2.2 = .watching false [] [] := by
  intro pending
  induction pending with
  | nil => exact ⟨rfl, rfl⟩
  | cons d rest ih =>
    have hstep : stepM cfg (.registering false (d :: rest)) (.addDir true) =
        .cont (afterReg false rest)
          (.addedDir d :: mevtLog cfg ("watching directory: " ++ d)) := by
      simp [stepM]
    rw [show afterReg false (d :: rest) = .registering false (d :: rest) from rfl,
      List.map_cons, multiGo_cons, hstep]
    dsimp only
    refine ⟨?_, ih.2⟩
    rw [List.cons_append, addedDirs_cons_addedDir, addedDirs_append, addedDirs_mevtLog,
      List.nil_append, ih.1]

theorem watchValidate_ok (cfg : Config) (h : cfg.hasOnChange = true) :
    watchValidate cfg = .ok cfg.applyDefaults := by
  simp [watchValidate, applyDefaults_hasOnChange, h]

theorem watchValidate_err (cfg : Config) (h : cfg.hasOnChange = false) :
    watchValidate cfg = .error "OnChange callback must be set" := by
  simp [watchValidate, applyDefaults_hasOnChange, h]

theorem multiValidate_ok (cfg : MultiConfig) (h1 : cfg.hasOnChange = true)
    (h2 : cfg.targetFiles ≠ []) :
    multiValidate cfg = .ok cfg.applyDefaults := by
  simp [multiValidate, mApplyDefaults_hasOnChange, mApplyDefaults_targetFiles, h1, h2]

theorem multiValidate_err1 (cfg : MultiConfig) (h : cfg.hasOnChange = false) :
    multiValidate cfg = .error "OnChange callback must be set" := by
  simp [multiValidate, mApplyDefaults_hasOnChange, h]

theorem multiValidate_err2 (cfg : MultiConfig) (h1 : cfg.hasOnChange = true)
    (h2 : cfg.targetFiles = []) :
    multiValidate cfg = .error "at least one target file must be specified" := by
  simp [multiValidate, mApplyDefaults_hasOnChange, mApplyDefaults_targetFiles, h1, h2]

/-! ## Claim theorems -/

/-- Claim C1. The claim says a directory-registration failure in `WatchMultiple`
tears down and retries the whole session, never entering the event loop.  On
the code as written, Go's `continue` inside the registration `select`
(main.go line 212) resumes the inner `for dir := range dirToFiles` loop, not
the outer session loop: after `w.Close()` the remaining directories are still
visited (each `Add` failing on the closed watcher, each failure waiting a
retry delay), and control then falls through into the event loop with the
watcher closed.  Evaluated here: two targets in two directories, the first
`Add` fails, no cancellation — the run ends inside the event loop
(`watching` phase, watcher closed, nothing registered), with no new
session-opening attempt (`attemptOpen`) in the log. -/
theorem c1_registration_failure_enters_event_loop :
    multiGo
      { hasOnChange := true, hasOnEvent := false, hasOnError := true,
        targetFiles := ["/a/x", "/b/y"], debounce := 1, retryDelay := 1 }
      .opening
      [.newWatcher true, .addDir false, .waitRetry false, .waitRetry false]
      = (none, [.opened, .onError, .retryWait 1, .onError, .retryWait 1],
          .watching true [] []) := by
  rfl

/-- Claim C2, counterexample. A run of `Watch` in which a mid-session adapter
error is followed by a fresh session opening with no retry wait anywhere in
the log: after `midErr` the very next log entries are `attemptOpen` and
`opened`, and `retryWaits` of the whole log is empty.  This refutes "a new
session is opened only after the retry delay has elapsed". -/
theorem c2_retry_delay_counterexample :
    watchRun
      { hasOnChange := true, hasOnEvent := false, hasOnError := false,
        targetFile := "/a/x", debounce := 1, retryDelay := 1 }
      [.newWatcher true, .addDir true, .sel (.werr false), .newWatcher true,
        .addDir true, .sel .done]
      = (some .ctxCancelled,
          [.attemptOpen, .opened, .addedDir "/a", .midErr, .attemptOpen, .opened,
            .addedDir "/a"]) ∧
    retryWaits
      [.attemptOpen, .opened, .addedDir "/a", .midErr, .attemptOpen, .opened,
        .addedDir "/a"] = [] := by
  exact ⟨rfl, rfl⟩

/-- Claim C2, amended. For every mid-session adapter error observed while a
session is watching (in both `Watch` and `WatchMultiple`), the session is
fully torn down and the next session-opening attempt begins immediately,
with no retry-delay wait between the error and the opening attempt: in every
run log, each `midErr` marker is immediately followed by an `attemptOpen`
marker.  (The retry delay is waited only when session establishment itself —
watcher creation or directory registration — fails.) -/
theorem c2_amended_error_reopens_immediately (cfg : Config) (mcfg : MultiConfig)
    (tr mtr : List OStep) :
    midErrFollowed (watchRun cfg tr).2 = true ∧
    midErrFollowed (multiRun mcfg mtr).2 = true := by
  constructor
  · unfold watchRun
    rcases hv : watchValidate cfg with msg | v
    · rfl
    · exact midErrFollowed_append [.attemptOpen] _ (by decide) (watchGo_midErr v tr .opening)
  · unfold multiRun
    rcases hv : multiValidate mcfg with msg | v
    · rfl
    · refine midErrFollowed_append _ _ ?_ ?_
      · exact midErrFollowed_of_no_midErr _
          (fun x hx => by rcases (mem_mevtLog_iff v _ _).mp hx with ⟨_, rfl⟩; simp)
      · exact midErrFollowed_append [.attemptOpen] _ (by decide) (multiGo_midErr v mtr .opening)

/-- Claim C4. A nil change callback (`Watch` or `WatchMultiple`) or an empty
target list (`WatchMultiple`) makes the function return the corresponding
configuration-error value synchronously: the run result is that error, the
log is empty (no event or error notifications, no session ever opened). -/
theorem c4_config_errors_synchronous (cfg : Config) (mcfg : MultiConfig)
    (tr mtr : List OStep) :
    (cfg.hasOnChange = false →
      watchRun cfg tr = (some (.configError "OnChange callback must be set"), [])) ∧
    (mcfg.hasOnChange = false →
      multiRun mcfg mtr = (some (.configError "OnChange callback must be set"), [])) ∧
    (mcfg.hasOnChange = true → mcfg.targetFiles = [] →
      multiRun mcfg mtr =
        (some (.configError "at least one target file must be specified"), [])) := by
  refine ⟨?_, ?_, ?_⟩
  · intro h; unfold watchRun; rw [watchValidate_err cfg h]
  · intro h; unfold multiRun; rw [multiValidate_err1 mcfg h]
  · intro h1 h2; unfold multiRun; rw [multiValidate_err2 mcfg h1 h2]

/-- Claim C4, witness. Concrete invalid configurations hit all three branches. -/
theorem c4_config_errors_synchronous_witness :
    watchRun
      { hasOnChange := false, hasOnEvent := true, hasOnError := true,
        targetFile := "/a/x", debounce := 0, retryDelay := 0 } [] =
      (some (.configError "OnChange callback must be set"), []) ∧
    multiRun
      { hasOnChange := false, hasOnEvent := true, hasOnError := true,
        targetFiles := ["/a/x"], debounce := 0, retryDelay := 0 } [] =
      (some (.configError "OnChange callback must be set"), []) ∧
    multiRun
      { hasOnChange := true, hasOnEvent := true, hasOnError := true,
        targetFiles := [], debounce := 0, retryDelay := 0 } [] =
      (some (.configError "at least one target file must be specified"), []) := by
  refine ⟨?_, ?_, ?_⟩
  · exact (c4_config_errors_synchronous
      { hasOnChange := false, hasOnEvent := true, hasOnError := true,
        targetFile := "/a/x", debounce := 0, retryDelay := 0 }
      { hasOnChange := true, hasOnEvent := true, hasOnError := true,
        targetFiles := [], debounce := 0, retryDelay := 0 } [] []).1 rfl
  · exact (c4_config_errors_synchronous
      { hasOnChange := false, hasOnEvent := true, hasOnError := true,
        targetFile := "/a/x", debounce := 0, retryDelay := 0 }
      { hasOnChange := false, hasOnEvent := true, hasOnError := true,
        targetFiles := ["/a/x"], debounce := 0, retryDelay := 0 } [] []).2.1 rfl
  · exact (c4_config_errors_synchronous
      { hasOnChange := false, hasOnEvent := true, hasOnError := true,
        targetFile := "/a/x", debounce := 0, retryDelay := 0 }
      { hasOnChange := true, hasOnEvent := true, hasOnError := true,
        targetFiles := [], debounce := 0, retryDelay := 0 } [] []).2.2 rfl rfl

/-- Claim C3. For any burst of N ≥ 1 relevant events on one target path, each
arriving within less than the settle delay of its predecessor, exactly one
change-callback firing results, at the last event's time plus the settle
delay — never zero and never more than one.  Holds for `Watch`'s single
timer and for `WatchMultiple`'s per-target timer (a burst on one target,
every event attributed to that target by the first-match filter). -/
theorem c3_burst_single_callback (cfg : Config) (mcfg : MultiConfig) (tgt : String)
    (evs mevs : List (Nat × FsEvent)) (p q : Nat × FsEvent)
    (hrel : ∀ x ∈ evs, eventMatches cfg.targetFile x.2 = true)
    (hgap : List.Chain' (fun a b => b.1 < a.1 + cfg.debounce) evs)
    (hlast : evs.getLast? = some p)
    (hmrel : ∀ x ∈ mevs, firstMatchingTarget mcfg.targetFiles x.2 = some tgt)
    (hmgap : List.Chain' (fun a b => b.1 < a.1 + mcfg.debounce) mevs)
    (hmlast : mevs.getLast? = some q) :
    watchFireTimes cfg evs = [p.1 + cfg.debounce] ∧
    multiFireTimes mcfg tgt mevs = [q.1 + mcfg.debounce] := by
  constructor
  · exact fireTimes_burst _ _ evs p hrel hgap hlast
  · refine fireTimes_burst _ _ mevs q ?_ hmgap hmlast
    intro x hx
    simp [hmrel x hx]

/-- Claim C3, witness. The spec's own scenario: writes at 0, 10 and 20 with a
settle delay of 50 give exactly one callback at 70; a two-event multi-target
burst at 0 and 10 gives exactly one callback at 60. -/
theorem c3_burst_single_callback_witness :
    watchFireTimes
      { hasOnChange := true, hasOnEvent := false, hasOnError := false,
        targetFile := "/a/x", debounce := 50, retryDelay := 1 }
      [(0, ⟨"/a/x", 2⟩), (10, ⟨"/a/x", 2⟩), (20, ⟨"/a/x", 2⟩)] = [70] ∧
    multiFireTimes
      { hasOnChange := true, hasOnEvent := false, hasOnError := false,
        targetFiles := ["/a/x"], debounce := 50, retryDelay := 1 } "/a/x"
      [(0, ⟨"/a/x", 2⟩), (10, ⟨"/a/x", 2⟩)] = [60] := by
  have h := c3_burst_single_callback
    { hasOnChange := true, hasOnEvent := false, hasOnError := false,
      targetFile := "/a/x", debounce := 50, retryDelay := 1 }
    { hasOnChange := true, hasOnEvent := false, hasOnError := false,
      targetFiles := ["/a/x"], debounce := 50, retryDelay := 1 } "/a/x"
    [(0, ⟨"/a/x", 2⟩), (10, ⟨"/a/x", 2⟩), (20, ⟨"/a/x", 2⟩)]
    [(0, ⟨"/a/x", 2⟩), (10, ⟨"/a/x", 2⟩)]
    (20, ⟨"/a/x", 2⟩) (10, ⟨"/a/x", 2⟩)
    (by decide) (by norm_num [List.chain'_cons]) (by decide)
    (by decide) (by norm_num [List.chain'_cons]) (by decide)
  simpa using h

/-- Claim C5. A raw event triggers debounce bookkeeping (event notification
plus timer reset) if and only if its path is exactly equal to one of the
configured target paths and its operation set intersects
{write, create, rename, remove}; any other event is discarded with no effect
on timers or outputs.  Stated for `WatchMultiple`'s event handler and for
`Watch`'s event arm, together with the equivalence between the code's filter
and the claim's relevance condition. -/
theorem c5_exact_path_and_op_filter (scfg : Config) (mcfg : MultiConfig) (act : Bool)
    (timers : List (String × Nat)) (e : FsEvent) :
    ((∃ t ∈ mcfg.targetFiles, e.name = t ∧ relevantOp e.op = true) →
      ∃ tgt, firstMatchingTarget mcfg.targetFiles e = some tgt ∧
        handleEventMulti mcfg timers e =
          (setTimer timers tgt mcfg.debounce,
            mevtLog mcfg ("change detected: " ++ e.name) ++
              [.timerReset tgt mcfg.debounce])) ∧
    ((¬ ∃ t ∈ mcfg.targetFiles, e.name = t ∧ relevantOp e.op = true) →
      handleEventMulti mcfg timers e = (timers, [])) ∧
    (eventMatches scfg.targetFile e = true ↔
      (e.name = scfg.targetFile ∧ relevantOp e.op = true)) ∧
    (eventMatches scfg.targetFile e = true →
      stepW scfg (.watching act) (.sel (.ev e)) =
        .cont (.watching true)
          (evtLog scfg ("change detected: " ++ e.name) ++
            [.timerReset scfg.targetFile scfg.debounce])) ∧
    (eventMatches scfg.targetFile e = false →
      stepW scfg (.watching act) (.sel (.ev e)) = .cont (.watching act) []) := by
  refine ⟨?_, ?_, ?_, ?_, ?_⟩
  · intro hex
    rcases hfm : firstMatchingTarget mcfg.targetFiles e with _ | tgt
    · exfalso
      obtain ⟨t, ht, hname, hop⟩ := hex
      have := List.find?_eq_none.mp hfm t ht
      simp [eventMatches, hname, hop] at this
    · refine ⟨tgt, rfl, ?_⟩
      unfold handleEventMulti
      rw [hfm]
  · intro hnex
    rcases hfm : firstMatchingTarget mcfg.targetFiles e with _ | tgt
    · unfold handleEventMulti
      rw [hfm]
    · exfalso
      have hmem := List.mem_of_find?_eq_some hfm
      have hp := List.find?_some hfm
      simp only [eventMatches, Bool.and_eq_true, beq_iff_eq] at hp
      exact hnex ⟨tgt, hmem, hp.1, hp.2⟩
  · simp [eventMatches, Bool.and_eq_true, beq_iff_eq]
  · intro h
    simp [stepW, h]
  · intro h
    simp [stepW, h]

/-- Claim C5, witness. A write event on an exact target path is bookkept; the
filter equivalence holds at that event. -/
theorem c5_exact_path_and_op_filter_witness :
    (∃ tgt, firstMatchingTarget ["/a/x", "/b/y"] ⟨"/a/x", 2⟩ = some tgt ∧
      handleEventMulti
        { hasOnChange := true, hasOnEvent := false, hasOnError := false,
          targetFiles := ["/a/x", "/b/y"], debounce := 5, retryDelay := 1 }
        [] ⟨"/a/x", 2⟩ =
        (setTimer [] tgt 5, [.timerReset tgt 5])) := by
  have h := (c5_exact_path_and_op_filter
    { hasOnChange := true, hasOnEvent := false, hasOnError := false,
      targetFile := "/a/x", debounce := 5, retryDelay := 1 }
    { hasOnChange := true, hasOnEvent := false, hasOnError := false,
      targetFiles := ["/a/x", "/b/y"], debounce := 5, retryDelay := 1 }
    false [] ⟨"/a/x", 2⟩).1 (by decide)
  simpa using h

/-- Claim C6. `Watch` and `WatchMultiple` return only a configuration error
(before any session) or the cancellation result: whenever a run terminates,
the returned value is the configuration error or `ctx.Err()`; no transient
error is ever the function's return value. -/
theorem c6_terminal_results (cfg : Config) (mcfg : MultiConfig) (tr mtr : List OStep)
    (r rm : WResult) (h : (watchRun cfg tr).1 = some r)
    (hm : (multiRun mcfg mtr).1 = some rm) :
    (r = .ctxCancelled ∨ r = .configError "OnChange callback must be set") ∧
    (rm = .ctxCancelled ∨ rm = .configError "OnChange callback must be set" ∨
      rm = .configError "at least one target file must be specified") := by
  constructor
  · unfold watchRun at h
    by_cases hc : cfg.hasOnChange = true
    · rw [watchValidate_ok cfg hc] at h
      exact Or.inl (watchGo_some _ tr .opening r h)
    · rw [watchValidate_err cfg (Bool.not_eq_true _ ▸ hc)] at h
      simp only [Option.some.injEq] at h
      exact Or.inr h.symm
  · unfold multiRun at hm
    by_cases hc : mcfg.hasOnChange = true
    · by_cases ht : mcfg.targetFiles = []
      · rw [multiValidate_err2 mcfg hc ht] at hm
        simp only [Option.some.injEq] at hm
        exact Or.inr (Or.inr hm.symm)
      · rw [multiValidate_ok mcfg hc ht] at hm
        exact Or.inl (multiGo_some _ mtr .opening rm hm)
    · rw [multiValidate_err1 mcfg (Bool.not_eq_true _ ▸ hc)] at hm
      simp only [Option.some.injEq] at hm
      exact Or.inr (Or.inl hm.symm)

/-- Claim C6, witness. A missing-callback run of `Watch` terminates with the
configuration error; a valid `WatchMultiple` run cancelled mid-session
terminates with the cancellation result. -/
theorem c6_terminal_results_witness :
    (WResult.configError "OnChange callback must be set" = .ctxCancelled ∨
      WResult.configError "OnChange callback must be set" =
        .configError "OnChange callback must be set") ∧
    (WResult.ctxCancelled = .ctxCancelled ∨
      WResult.ctxCancelled = .configError "OnChange callback must be set" ∨
      WResult.ctxCancelled = .configError "at least one target file must be specified") := by
  exact c6_terminal_results
    { hasOnChange := false, hasOnEvent := false, hasOnError := false,
      targetFile := "/a/x", debounce := 1, retryDelay := 1 }
    { hasOnChange := true, hasOnEvent := false, hasOnError := false,
      targetFiles := ["/a/x"], debounce := 1, retryDelay := 1 }
    [] [.newWatcher true, .addDir true, .sel .done]
    (.configError "OnChange callback must be set") .ctxCancelled rfl rfl

/-- Claim C7. A configured settle delay of exactly zero is replaced by the
default of 3 seconds and a retry delay of exactly zero by the default of
2 seconds; non-zero values are kept unchanged.  The substitution is made
once, at validation: every retry wait performed and every timer reset made
in any run — across all session iterations — uses exactly the once-defaulted
value. -/
theorem c7_zero_delays_defaulted_once (cfg : Config) (mcfg : MultiConfig)
    (tr mtr : List OStep) :
    (cfg.applyDefaults.debounce =
      (if cfg.debounce = 0 then DefaultDebounce else cfg.debounce)) ∧
    (cfg.applyDefaults.retryDelay =
      (if cfg.retryDelay = 0 then DefaultRetryDelay else cfg.retryDelay)) ∧
    (mcfg.applyDefaults.debounce =
      (if mcfg.debounce = 0 then DefaultDebounce else mcfg.debounce)) ∧
    (mcfg.applyDefaults.retryDelay =
      (if mcfg.retryDelay = 0 then DefaultRetryDelay else mcfg.retryDelay)) ∧
    (∀ d, LogItem.retryWait d ∈ (watchRun cfg tr).2 →
      d = (if cfg.retryDelay = 0 then DefaultRetryDelay else cfg.retryDelay)) ∧
    (∀ t d, LogItem.timerReset t d ∈ (watchRun cfg tr).2 →
      d = (if cfg.debounce = 0 then DefaultDebounce else cfg.debounce)) ∧
    (∀ d, LogItem.retryWait d ∈ (multiRun mcfg mtr).2 →
      d = (if mcfg.retryDelay = 0 then DefaultRetryDelay else mcfg.retryDelay)) ∧
    (∀ t d, LogItem.timerReset t d ∈ (multiRun mcfg mtr).2 →
      d = (if mcfg.debounce = 0 then DefaultDebounce else mcfg.debounce)) := by
  refine ⟨applyDefaults_debounce cfg, applyDefaults_retryDelay cfg,
    mApplyDefaults_debounce mcfg, mApplyDefaults_retryDelay mcfg, ?_, ?_, ?_, ?_⟩
  · intro d hd
    unfold watchRun at hd
    by_cases hc : cfg.hasOnChange = true
    · rw [watchValidate_ok cfg hc] at hd
      rcases List.mem_cons.mp hd with h1 | h2
      · cases h1
      · rw [← applyDefaults_retryDelay]
        exact (watchGo_delays cfg.applyDefaults tr .opening).1 d h2
    · rw [watchValidate_err cfg (Bool.not_eq_true _ ▸ hc)] at hd
      simp at hd
  · intro t d hd
    unfold watchRun at hd
    by_cases hc : cfg.hasOnChange = true
    · rw [watchValidate_ok cfg hc] at hd
      rcases List.mem_cons.mp hd with h1 | h2
      · cases h1
      · rw [← applyDefaults_debounce]
        exact (watchGo_delays cfg.applyDefaults tr .opening).2 t d h2
    · rw [watchValidate_err cfg (Bool.not_eq_true _ ▸ hc)] at hd
      simp at hd
  · intro d hd
    unfold multiRun at hd
    by_cases hc : mcfg.hasOnChange = true
    · by_cases ht : mcfg.targetFiles = []
      · rw [multiValidate_err2 mcfg hc ht] at hd
        simp at hd
      · rw [multiValidate_ok mcfg hc ht] at hd
        rcases List.mem_append.mp hd with h1 | h2
        · rcases (mem_mevtLog_iff _ _ _).mp h1 with ⟨_, hx⟩
          cases hx
        · rcases List.mem_cons.mp h2 with h3 | h4
          · cases h3
          · rw [← mApplyDefaults_retryDelay]
            exact (multiGo_delays mcfg.applyDefaults mtr .opening).1 d h4
    · rw [multiValidate_err1 mcfg (Bool.not_eq_true _ ▸ hc)] at hd
      simp at hd
  · intro t d hd
    unfold multiRun at hd
    by_cases hc : mcfg.hasOnChange = true
    · by_cases ht : mcfg.targetFiles = []
      · rw [multiValidate_err2 mcfg hc ht] at hd
        simp at hd
      · rw [multiValidate_ok mcfg hc ht] at hd
        rcases List.mem_append.mp hd with h1 | h2
        · rcases (mem_mevtLog_iff _ _ _).mp h1 with ⟨_, hx⟩
          cases hx
        · rcases List.mem_cons.mp h2 with h3 | h4
          · cases h3
          · rw [← mApplyDefaults_debounce]
            exact (multiGo_delays mcfg.applyDefaults mtr .opening).2 t d h4
    · rw [multiValidate_err1 mcfg (Bool.not_eq_true _ ▸ hc)] at hd
      simp at hd

/-- Claim C7, witness. A run whose establishment fails once actually waits the
configured (non-zero) retry delay of 7, and 7 is the defaulted value. -/
theorem c7_zero_delays_defaulted_once_witness :
    LogItem.retryWait 7 ∈
      (watchRun
        { hasOnChange := true, hasOnEvent := false, hasOnError := false,
          targetFile := "/a/x", debounce := 5, retryDelay := 7 }
        [.newWatcher false, .waitRetry false]).2 ∧
    (7 : Nat) = (if (7 : Nat) = 0 then DefaultRetryDelay else 7) := by
  refine ⟨by decide, ?_⟩
  exact (c7_zero_delays_defaulted_once
    { hasOnChange := true, hasOnEvent := false, hasOnError := false,
      targetFile := "/a/x", debounce := 5, retryDelay := 7 }
    { hasOnChange := true, hasOnEvent := false, hasOnError := false,
      targetFiles := ["/a/x"], debounce := 5, retryDelay := 7 }
    [.newWatcher false, .waitRetry false] []).2.2.2.2.1 7 (by decide)

/-- Claim C8. In a session establishment in which every registration succeeds,
the directories registered with the event source are exactly the containing
directories (`filepath.Dir`) of the configured targets: membership in the
registered list is equivalent to being the containing directory of some
target, and the list has no duplicates — each distinct directory is
registered exactly once however many targets share it. -/
theorem c8_distinct_dirs_registered_once (cfg : MultiConfig) :
    addedDirs (multiGo cfg .opening
      (.newWatcher true ::
        (targetDirs cfg.targetFiles).map (fun _ => OStep.addDir true))).2.1
      = targetDirs cfg.targetFiles ∧
    (∀ dir, dir ∈ targetDirs cfg.targetFiles ↔
      ∃ f ∈ cfg.targetFiles, filepathDir f = dir) ∧
    (targetDirs cfg.targetFiles).Nodup := by
  refine ⟨?_, fun dir => mem_targetDirs _ dir, nodup_targetDirs _⟩
  have hstep : stepM cfg .opening (.newWatcher true) =
      .cont (afterReg false (targetDirs cfg.targetFiles)) [.opened] := by
    simp [stepM]
  rw [multiGo_cons, hstep]
  dsimp only
  rw [show (([.opened] : List LogItem) ++
      (multiGo cfg (afterReg false (targetDirs cfg.targetFiles))
        ((targetDirs cfg.targetFiles).map (fun _ => OStep.addDir true))).2.1) =
      .opened :: (multiGo cfg (afterReg false (targetDirs cfg.targetFiles))
        ((targetDirs cfg.targetFiles).map (fun _ => OStep.addDir true))).2.1 from rfl]
  exact (multiGo_register_allOk cfg (targetDirs cfg.targetFiles)).1

/-- Claim C9. Handling a relevant raw event attributed to target `tgt` changes
only `tgt`'s entry in the per-target timer map: every other target's pending
timer is left exactly as it was (neither stopped, replaced nor rescheduled). -/
theorem c9_event_frames_other_timers (cfg : MultiConfig) (timers : List (String × Nat))
    (e : FsEvent) (tgt b : String)
    (hm : firstMatchingTarget cfg.targetFiles e = some tgt) (hb : b ≠ tgt) :
    lookupTimer (handleEventMulti cfg timers e).1 b = lookupTimer timers b := by
  unfold handleEventMulti
  rw [hm]
  exact lookupTimer_setTimer_ne tgt b cfg.debounce hb timers

/-- Claim C9, witness. An event for `/a/x` leaves `/b/y`'s pending timer
untouched. -/
theorem c9_event_frames_other_timers_witness :
    lookupTimer
      (handleEventMulti
        { hasOnChange := true, hasOnEvent := false, hasOnError := false,
          targetFiles := ["/a/x", "/b/y"], debounce := 5, retryDelay := 1 }
        [("/b/y", 9)] ⟨"/a/x", 2⟩).1 "/b/y" =
      lookupTimer [("/b/y", 9)] "/b/y" := by
  exact c9_event_frames_other_timers
    { hasOnChange := true, hasOnEvent := false, hasOnError := false,
      targetFiles := ["/a/x", "/b/y"], debounce := 5, retryDelay := 1 }
    [("/b/y", 9)] ⟨"/a/x", 2⟩ "/a/x" "/b/y" (by decide) (by decide)

/-- Claim C10. When a mid-session adapter error tears the session down while
target `a` has a pending timer, that pending settlement is lost: the timers
are not cancelled but deliver into the discarded `debouncedEvents` channel
and timer map of the dead session (modelled by the fresh empty debounce
state of the next session and the no-op stale `fire`), so no change-callback
invocation for `a` ever occurs in the rest of the run unless a new raw event
is attributed to `a`. -/
theorem c10_pending_settlement_lost_on_error (cfg : MultiConfig)
    (closed isNil : Bool) (timers : List (String × Nat)) (buffer : List String)
    (a : String) (rest : List OStep)
    (_hpending : lookupTimer timers a ≠ none)
    (hnoev : ∀ e, OStep.sel (.ev e) ∈ rest →
      firstMatchingTarget cfg.targetFiles e ≠ some a) :
    LogItem.onChangeFile a ∉
      (multiGo cfg (.watching closed timers buffer)
        (.sel (.werr isNil) :: rest)).2.1 := by
  have hstep : stepM cfg (.watching closed timers buffer) (.sel (.werr isNil)) =
      .cont .opening
        ((if !(isNil || closed) && cfg.hasOnError then [.onError] else []) ++
          [.midErr, .attemptOpen]) := by
    simp [stepM]
  rw [multiGo_cons, hstep]
  dsimp only
  intro hmem
  rcases List.mem_append.mp hmem with h1 | h2
  · rcases List.mem_append.mp h1 with ha | hb
    · split at ha <;> simp_all
    · simp at hb
  · exact multiGo_noChange cfg a rest .opening (by trivial) hnoev h2

/-- Claim C10, witness. With `/a/x` pending at the error, a restarted session
receiving only an unrelated event never calls back for `/a/x`. -/
theorem c10_pending_settlement_lost_on_error_witness :
    LogItem.onChangeFile "/a/x" ∉
      (multiGo
        { hasOnChange := true, hasOnEvent := false, hasOnError := false,
          targetFiles := ["/a/x"], debounce := 5, retryDelay := 1 }
        (.watching false [("/a/x", 5)] [])
        [.sel (.werr false), .newWatcher true, .addDir true,
          .sel (.ev ⟨"/b/y", 2⟩)]).2.1 := by
  exact c10_pending_settlement_lost_on_error
    { hasOnChange := true, hasOnEvent := false, hasOnError := false,
      targetFiles := ["/a/x"], debounce := 5, retryDelay := 1 }
    false false [("/a/x", 5)] [] "/a/x"
    [.newWatcher true, .addDir true, .sel (.ev ⟨"/b/y", 2⟩)]
    (by decide)
    (by
      intro e he
      simp only [List.mem_cons, List.not_mem_nil, or_false] at he
      rcases he with he | he | he <;> cases he <;> decide)

end Reloader
